import Mathlib

/-!
Shallow embedding of the gbc-emulator CPU core:
  * `src/src/cpu/ops.rs`        — operand descriptors (`Arg8`, `Arg16`, `IndirectAddr`)
  * `src/src/cpu/interpreter.rs`— the interpreter implementation of the CPU ops
  * `src/src/cartridge/rom.rs`  — the plain-ROM memory-bank-controller variant

Modelling conventions:
  * `u8`/`u16` values are `Nat`, with an explicit `% 256` / `% 65536` inserted
    exactly where the Rust type forces a truncation (`as u8`, `as u16`, a store
    into a `u8`/`u16` field).  Wrapping `+`/`-` on `u8`/`u16` is modelled as
    arithmetic mod `2^8` / `2^16`.
  * Rust panics (writes to an `Imm` operand, out-of-bounds array indexing) are
    modelled by `Option`-valued functions returning `none`; no partial state is
    produced on the `none` path, mirroring the fact that the panicking match
    arms perform no mutation before the panic.
  * `cpu/registers.rs` and `memory.rs` are not part of the sources under
    `src/`; the flag accessors of the register file and the bus write path are
    modelled from the spec where indicated by their doc comments.
-/

namespace GBC

/-- 8-bit register names (`Reg8` of `cpu/registers`, as used by `ops.rs`). -/
inductive Reg8
  | A | B | C | D | E | F | H | L
deriving DecidableEq

/-- 16-bit register-pair names (`Reg16` of `cpu/registers`). -/
inductive Reg16
  | AF | BC | DE | HL | SP | PC
deriving DecidableEq

/-- Indirect addressing forms (`IndirectAddr` of `cpu`); the payloads are the
`u8`/`u16` immediates carried by the `Imm8`/`Imm16` variants. -/
inductive IndirectAddr
  | BC | DE | HL | C
  | Imm8 (n : Nat)
  | Imm16 (n : Nat)
deriving DecidableEq

/-- 8-bit operand descriptor (`Arg8` in `src/src/cpu/ops.rs`). -/
inductive Arg8
  | Reg (r : Reg8)
  | Ind (a : IndirectAddr)
  | Imm (v : Nat)
deriving DecidableEq

/-- 16-bit operand descriptor (`Arg16` in `src/src/cpu/ops.rs`). -/
inductive Arg16
  | Reg (r : Reg16)
  | Ind (a : IndirectAddr)
  | Imm (v : Nat)
deriving DecidableEq

/-- The register file: eight 8-bit registers plus `sp` and `pc`
(struct `Registers` of `cpu/registers`, with the fields used by
`interpreter.rs`). -/
structure Registers where
  a : Nat
  f : Nat
  b : Nat
  c : Nat
  d : Nat
  e : Nat
  h : Nat
  l : Nat
  sp : Nat
  pc : Nat
deriving DecidableEq

/-- Flag names (`Flag` of `cpu/registers`). -/
inductive Flag
  | Z | N | H | C
deriving DecidableEq

/-- Bit position of each flag in `F`.  Modelled from the spec: Z=bit7, N=bit6,
H=bit5, C=bit4 (spec section 3, `cpu/registers.rs` is not under `src/`). -/
def Flag.bit : Flag → Nat
  | .Z => 7
  | .N => 6
  | .H => 5
  | .C => 4

/-- Modelled from the spec: `Registers::get_flag` (`cpu/registers.rs` is not
under `src/`) — reads the designated bit of `F`. -/
def get_flag (r : Registers) (fl : Flag) : Bool :=
  Nat.testBit r.f fl.bit

/-- Modelled from the spec: `Registers::update_flag` (`cpu/registers.rs` is not
under `src/`) — sets the designated bit of `F` to the given boolean, leaves the
other three flag bits unchanged, and masks the low nibble of `F` to zero (the
spec requires the mask after every flag write).  `F` is rebuilt from the four
flag bits, which is equivalent to `(set-or-clear bit) &&& 0xF0` on a `u8`. -/
def update_flag (r : Registers) (fl : Flag) (b : Bool) : Registers :=
  let z := if fl = Flag.Z then b else get_flag r Flag.Z
  let n := if fl = Flag.N then b else get_flag r Flag.N
  let hh := if fl = Flag.H then b else get_flag r Flag.H
  let cc := if fl = Flag.C then b else get_flag r Flag.C
  { r with f := (if z then 128 else 0) + (if n then 64 else 0) +
               (if hh then 32 else 0) + (if cc then 16 else 0) }

/-- Modelled from the spec: `Registers::set_flag`. -/
def set_flag (r : Registers) (fl : Flag) : Registers :=
  update_flag r fl true

/-- Modelled from the spec: `Registers::reset_flag`. -/
def reset_flag (r : Registers) (fl : Flag) : Registers :=
  update_flag r fl false

/-- `get_flag_bit` of `interpreter.rs`: `((value >> bit) & 0x1) == 1`, where
every call site passes a `u16` value.  Rust masks the shift amount of `>>` by
the operand's bit width in release builds (so a shift by 16 on a `u16` behaves
as a shift by 0; under debug assertions it panics instead), hence the shift
amount is taken mod 16. -/
def get_flag_bit (value bit : Nat) : Bool :=
  ((value >>> (bit % 16)) &&& 1) == 1

/-- The `read_reg_pair!` macro of `interpreter.rs`: `((h as u16) << 8) | l`. -/
def read_reg_pair (h l : Nat) : Nat :=
  (h <<< 8) ||| l

/-- The `write_reg_pair!` macro of `interpreter.rs`: the high half is
`(v >> 8) as u8`, the low half is `(v & 0xFF) as u8`. -/
def split16 (v : Nat) : Nat × Nat :=
  ((v >>> 8) % 256, v &&& 0xFF)

/-- CPU state: the register file plus the memory bus contents, the latter as a
byte-valued function of the 16-bit address (`Cpu` of `interpreter.rs` holds
`regs` and an `Rc<RefCell<Memory>>`; the single-threaded interpreter gives the
bus a plain functional model). -/
structure Cpu where
  regs : Registers
  mem : Nat → Nat

/-- `Cpu::mem_read_u8` delegating to the bus: one byte at the (16-bit)
address. -/
def mem_read_u8 (cpu : Cpu) (addr : Nat) : Nat :=
  cpu.mem (addr % 65536)

/-- Modelled from the spec: `Memory::write_u8` (`memory.rs` is not under
`src/`) — stores one byte at the 16-bit address. -/
def mem_write_u8 (cpu : Cpu) (addr v : Nat) : Cpu :=
  { cpu with mem := fun x => if x = addr % 65536 then v % 256 else cpu.mem x }

/-- `Cpu::mem_read_u16` of `interpreter.rs`: reads `l` at `addr`, `h` at
`addr+1`, and returns `((l as u16) << 8) | h` — note the byte read at the
LOWER address lands in the HIGH half of the result. -/
def mem_read_u16 (cpu : Cpu) (addr : Nat) : Nat :=
  let l := mem_read_u8 cpu addr
  let h := mem_read_u8 cpu (addr + 1)
  (l <<< 8) ||| h

/-- Modelled from the spec: `Memory::write_u16` (`memory.rs` is not under
`src/`) — spec section 4.5 specifies the derived 16-bit bus helpers as
little-endian: low byte at `addr`, high byte at `addr+1`. -/
def mem_write_u16 (cpu : Cpu) (addr v : Nat) : Cpu :=
  mem_write_u8 (mem_write_u8 cpu addr (v &&& 0xFF)) (addr + 1) ((v >>> 8) &&& 0xFF)

/-- `get_address` of `interpreter.rs`: resolves an `IndirectAddr` to an
effective 16-bit address. -/
def get_address (cpu : Cpu) (a : IndirectAddr) : Nat :=
  match a with
  | .BC => read_reg_pair cpu.regs.b cpu.regs.c
  | .DE => read_reg_pair cpu.regs.d cpu.regs.e
  | .HL => read_reg_pair cpu.regs.h cpu.regs.l
  | .C => cpu.regs.c + 0xFF00
  | .Imm8 n => n + 0xFF00
  | .Imm16 n => n

/-- `read_arg8` of `interpreter.rs`. -/
def read_arg8 (cpu : Cpu) (arg : Arg8) : Nat :=
  match arg with
  | .Reg r =>
    match r with
    | .A => cpu.regs.a
    | .B => cpu.regs.b
    | .C => cpu.regs.c
    | .D => cpu.regs.d
    | .E => cpu.regs.e
    | .F => cpu.regs.f
    | .H => cpu.regs.h
    | .L => cpu.regs.l
  | .Ind addr => mem_read_u8 cpu (get_address cpu addr)
  | .Imm v => v

/-- `write_arg8` of `interpreter.rs`.  The `Arg8::Imm` arm is
`panic!("Cannot write to {:?}", arg)`; the panic is modelled as `none`, and no
mutation precedes it in the source. -/
def write_arg8 (cpu : Cpu) (arg : Arg8) (data : Nat) : Option Cpu :=
  match arg with
  | .Reg r =>
    some { cpu with regs :=
      match r with
      | .A => { cpu.regs with a := data % 256 }
      | .B => { cpu.regs with b := data % 256 }
      | .C => { cpu.regs with c := data % 256 }
      | .D => { cpu.regs with d := data % 256 }
      | .E => { cpu.regs with e := data % 256 }
      | .F => { cpu.regs with f := data % 256 }
      | .H => { cpu.regs with h := data % 256 }
      | .L => { cpu.regs with l := data % 256 } }
  | .Ind addr => some (mem_write_u8 cpu (get_address cpu addr) data)
  | .Imm _ => none

/-- `read_arg16` of `interpreter.rs`. -/
def read_arg16 (cpu : Cpu) (arg : Arg16) : Nat :=
  match arg with
  | .Reg r =>
    match r with
    | .AF => read_reg_pair cpu.regs.a cpu.regs.f
    | .BC => read_reg_pair cpu.regs.b cpu.regs.c
    | .DE => read_reg_pair cpu.regs.d cpu.regs.e
    | .HL => read_reg_pair cpu.regs.h cpu.regs.l
    | .SP => cpu.regs.sp
    | .PC => cpu.regs.pc
  | .Ind addr => mem_read_u16 cpu (get_address cpu addr)
  | .Imm v => v

/-- `write_arg16` of `interpreter.rs`.  The `Arg16::Imm` arm is
`panic!("Cannot write to {:?}", arg)`, modelled as `none` with no prior
mutation. -/
def write_arg16 (cpu : Cpu) (arg : Arg16) (data : Nat) : Option Cpu :=
  match arg with
  | .Reg r =>
    some { cpu with regs :=
      match r with
      | .AF => { cpu.regs with a := (split16 data).1, f := (split16 data).2 }
      | .BC => { cpu.regs with b := (split16 data).1, c := (split16 data).2 }
      | .DE => { cpu.regs with d := (split16 data).1, e := (split16 data).2 }
      | .HL => { cpu.regs with h := (split16 data).1, l := (split16 data).2 }
      | .SP => { cpu.regs with sp := data % 65536 }
      | .PC => { cpu.regs with pc := data % 65536 } }
  | .Ind addr => some (mem_write_u16 cpu (get_address cpu addr) data)
  | .Imm _ => none

/-- `ld16_hlsp` of `interpreter.rs`.  `offset` is the `i8` immediate; the Rust
cast `offset as u16` sign-extends, i.e. yields `offset` mod `2^16`, and the
`u16` subtraction/addition wraps mod `2^16`. -/
def ld16_hlsp (cpu : Cpu) (offset : Int) : Cpu :=
  let cast : Nat := (offset % 65536).toNat
  let value :=
    if offset < 0 then (cpu.regs.sp + 65536 - cast) % 65536
    else (cpu.regs.sp + cast) % 65536
  { cpu with regs := { cpu.regs with h := (split16 value).1, l := (split16 value).2 } }

/-- `push` of `interpreter.rs`: writes the 16-bit value at the CURRENT `sp`
through the bus, then decrements `sp` by 2 (wrapping `u16` subtraction). -/
def push (cpu : Cpu) (i : Arg16) : Cpu :=
  let sp := cpu.regs.sp
  let content := read_arg16 cpu i
  let c := mem_write_u16 cpu sp content
  { c with regs := { c.regs with sp := (sp + 65536 - 2) % 65536 } }

/-- `pop` of `interpreter.rs`: increments `sp` by 2 FIRST, then reads the
16-bit value at the new `sp` with `Cpu::mem_read_u16`, then writes it to the
destination operand. -/
def pop (cpu : Cpu) (o : Arg16) : Option Cpu :=
  let sp := (cpu.regs.sp + 2) % 65536
  let c : Cpu := { cpu with regs := { cpu.regs with sp := sp } }
  let value := mem_read_u16 c sp
  write_arg16 c o value

/-- `add` of `interpreter.rs`: `result` is the widened `u16` sum
`a as u16 + operand as u16`; `a` receives `result as u8`; then
`Z := result == 0`, `N := false`, `H := bit 4 of result`,
`C := bit 8 of result`. -/
def add (cpu : Cpu) (i : Arg8) : Cpu :=
  let result := cpu.regs.a + read_arg8 cpu i
  let regs := { cpu.regs with a := result % 256 }
  let regs := update_flag regs Flag.Z (result == 0)
  let regs := reset_flag regs Flag.N
  let regs := update_flag regs Flag.H (get_flag_bit result 4)
  let regs := update_flag regs Flag.C (get_flag_bit result 8)
  { cpu with regs := regs }

/-- `inc` of `interpreter.rs`: `result = read_arg8(io) + 1` on `u8` (wrapping
modelled mod 256), written back, then `Z := result == 0`, `N := false`,
`H := bit 3 of result`; the C flag is never touched. -/
def inc (cpu : Cpu) (io : Arg8) : Option Cpu :=
  let result := (read_arg8 cpu io + 1) % 256
  match write_arg8 cpu io result with
  | none => none
  | some c =>
    let regs := update_flag c.regs Flag.Z (result == 0)
    let regs := reset_flag regs Flag.N
    let regs := update_flag regs Flag.H (get_flag_bit result 3)
    some { c with regs := regs }

/-- `dec` of `interpreter.rs`: `result = read_arg8(io) - 1` on `u8` (wrapping
modelled mod 256), written back, then `Z := result == 0`, `N := true`; the H
flag is never written (the source carries a `TODO(David): H flag`), and the C
flag is never touched. -/
def dec (cpu : Cpu) (io : Arg8) : Option Cpu :=
  let result := (read_arg8 cpu io + 255) % 256
  match write_arg8 cpu io result with
  | none => none
  | some c =>
    let regs := update_flag c.regs Flag.Z (result == 0)
    let regs := set_flag regs Flag.N
    some { c with regs := regs }

/-- `add16` of `interpreter.rs`: widened `u32` sum of `HL` and the operand,
`HL` receives `result as u16`; then `N := false`,
`H := bit 12 of (result as u16)`, `C := bit 16 of (result as u16)` — note both
bit tests are applied to the value ALREADY truncated to 16 bits, mirroring the
source's `get_flag_bit(result as u16, _)`, and the shift by 16 on a `u16` is
the release-mode masked shift (see `get_flag_bit`), i.e. bit 0 of the
truncated sum.  Z is never touched. -/
def add16 (cpu : Cpu) (i : Arg16) : Cpu :=
  let result := read_reg_pair cpu.regs.h cpu.regs.l + read_arg16 cpu i
  let regs := { cpu.regs with
    h := (split16 (result % 65536)).1, l := (split16 (result % 65536)).2 }
  let regs := reset_flag regs Flag.N
  let regs := update_flag regs Flag.H (get_flag_bit (result % 65536) 12)
  let regs := update_flag regs Flag.C (get_flag_bit (result % 65536) 16)
  { cpu with regs := regs }

/-- `rlc` of `interpreter.rs`: `C := bit 7 of value`, then
`result = value << 1` as `u8` (the outgoing bit is NOT fed back into bit 0),
written back, then `Z := result == 0`, `N := false`, `H := false`. -/
def rlc (cpu : Cpu) (io : Arg8) : Option Cpu :=
  let value := read_arg8 cpu io
  let c : Cpu := { cpu with regs := update_flag cpu.regs Flag.C (get_flag_bit value 7) }
  let result := (value <<< 1) % 256
  match write_arg8 c io result with
  | none => none
  | some c2 =>
    let regs := update_flag c2.regs Flag.Z (result == 0)
    let regs := reset_flag regs Flag.N
    let regs := reset_flag regs Flag.H
    some { c2 with regs := regs }

/-- `rl` of `interpreter.rs`: the body is exactly `self.rlc(io)` (the source
carries a `TODO` noting the author did not know how RL differs from RLC). -/
def rl (cpu : Cpu) (io : Arg8) : Option Cpu :=
  rlc cpu io

/-- `rrc` of `interpreter.rs`: `C := bit 0 of value`, then
`result = value >> 1` (the outgoing bit is NOT fed back into bit 7), written
back, then `Z := result == 0`, `N := false`, `H := false`. -/
def rrc (cpu : Cpu) (io : Arg8) : Option Cpu :=
  let value := read_arg8 cpu io
  let c : Cpu := { cpu with regs := update_flag cpu.regs Flag.C (get_flag_bit value 0) }
  let result := value >>> 1
  match write_arg8 c io result with
  | none => none
  | some c2 =>
    let regs := update_flag c2.regs Flag.Z (result == 0)
    let regs := reset_flag regs Flag.N
    let regs := reset_flag regs Flag.H
    some { c2 with regs := regs }

/-- `rr` of `interpreter.rs`: the body is exactly `self.rrc(io)`. -/
def rr (cpu : Cpu) (io : Arg8) : Option Cpu :=
  rrc cpu io

/-- `swap` of `interpreter.rs`: writes
`((initial >> 4) & 0xF) | ((initial << 4) & 0xF)` — note the second mask is
`0xF`, not `0xF0`, so the left-shifted half is always zero; no flag is
written. -/
def swap (cpu : Cpu) (io : Arg8) : Option Cpu :=
  let initial := read_arg8 cpu io
  write_arg8 cpu io (((initial >>> 4) &&& 0xF) ||| (((initial <<< 4) % 256) &&& 0xF))

/-- The plain-ROM backing store (`ROM` of `src/src/cartridge/rom.rs`): a fixed
buffer of `0x8000` bytes, modelled as a byte-valued function whose meaningful
domain is `[0, 0x8000)`. -/
structure ROM where
  rom : Nat → Nat

/-- `ROM::read_u8` of `src/src/cartridge/rom.rs`: `self.rom[addr as usize]` —
direct indexing of the `[u8; 0x8000]` buffer with the raw address; Rust
indexing panics when `addr ≥ 0x8000`, modelled as `none`. -/
def ROM.read_u8 (r : ROM) (addr : Nat) : Option Nat :=
  if addr < 0x8000 then some (r.rom addr) else none

/-- An all-zero register file, used to build the concrete states of the
theorems below. -/
def regs0 : Registers :=
  { a := 0, f := 0, b := 0, c := 0, d := 0, e := 0, h := 0, l := 0, sp := 0, pc := 0 }

/-- A CPU state with zeroed registers and an all-zero memory. -/
def cpu0 : Cpu :=
  { regs := regs0, mem := fun _ => 0 }

/-- An all-zero ROM image. -/
def romZero : ROM :=
  { rom := fun _ => 0 }

/-- Helper: bit 7 of the recomposed flag byte is the Z component. -/
theorem testBit_flags7 (z n h c : Bool) :
    Nat.testBit ((if z then 128 else 0) + (if n then 64 else 0) +
      (if h then 32 else 0) + (if c then 16 else 0)) 7 = z := by
  cases z <;> cases n <;> cases h <;> cases c <;> decide

/-- Helper: bit 6 of the recomposed flag byte is the N component. -/
theorem testBit_flags6 (z n h c : Bool) :
    Nat.testBit ((if z then 128 else 0) + (if n then 64 else 0) +
      (if h then 32 else 0) + (if c then 16 else 0)) 6 = n := by
  cases z <;> cases n <;> cases h <;> cases c <;> decide

/-- Helper: bit 5 of the recomposed flag byte is the H component. -/
theorem testBit_flags5 (z n h c : Bool) :
    Nat.testBit ((if z then 128 else 0) + (if n then 64 else 0) +
      (if h then 32 else 0) + (if c then 16 else 0)) 5 = h := by
  cases z <;> cases n <;> cases h <;> cases c <;> decide

/-- Helper: bit 4 of the recomposed flag byte is the C component. -/
theorem testBit_flags4 (z n h c : Bool) :
    Nat.testBit ((if z then 128 else 0) + (if n then 64 else 0) +
      (if h then 32 else 0) + (if c then 16 else 0)) 4 = c := by
  cases z <;> cases n <;> cases h <;> cases c <;> decide

/-- Helper: reading a flag after `update_flag` gives the written boolean for
the updated flag and the previous value for every other flag. -/
theorem get_flag_update_flag (r : Registers) (fl : Flag) (b : Bool) (fl' : Flag) :
    get_flag (update_flag r fl b) fl' = if fl' = fl then b else get_flag r fl' := by
  cases fl' with
  | Z =>
    show Nat.testBit (update_flag r fl b).f 7 = _
    simp only [update_flag]
    rw [testBit_flags7]
    cases fl <;> simp
  | N =>
    show Nat.testBit (update_flag r fl b).f 6 = _
    simp only [update_flag]
    rw [testBit_flags6]
    cases fl <;> simp
  | H =>
    show Nat.testBit (update_flag r fl b).f 5 = _
    simp only [update_flag]
    rw [testBit_flags5]
    cases fl <;> simp
  | C =>
    show Nat.testBit (update_flag r fl b).f 4 = _
    simp only [update_flag]
    rw [testBit_flags4]
    cases fl <;> simp

/-- Helper: recombining the two halves produced by `split16` through
`read_reg_pair` recovers any value below `2^16`. -/
theorem recombine (t : Nat) (ht : t < 65536) :
    read_reg_pair (split16 t).1 (split16 t).2 = t := by
  have hdiv : t >>> 8 < 256 := by
    rw [Nat.shiftRight_eq_div_pow]
    omega
  apply Nat.eq_of_testBit_eq
  intro i
  simp only [read_reg_pair, split16, Nat.mod_eq_of_lt hdiv, Nat.testBit_or,
    Nat.testBit_shiftLeft, Nat.testBit_shiftRight]
  rw [show (0xFF : Nat) = 2 ^ 8 - 1 from rfl]
  simp only [Nat.testBit_and, Nat.testBit_two_pow_sub_one]
  by_cases hi : i < 8
  · have h1 : ¬ (8 ≤ i) := by omega
    simp [hi, h1]
  · have h1 : 8 ≤ i := by omega
    have h2 : 8 + (i - 8) = i := by omega
    simp [hi, h1, h2]

/-- Helper: for an in-range bit position the source's `get_flag_bit` agrees
with `Nat.testBit` (the shift-amount mask is the identity below 16). -/
theorem get_flag_bit_eq_testBit (value bit : Nat) (h : bit < 16) :
    get_flag_bit value bit = Nat.testBit value bit := by
  rw [Bool.eq_iff_iff]
  simp [get_flag_bit, Nat.mod_eq_of_lt h, Nat.and_one_is_mod, Nat.testBit_to_div_mod,
    Nat.shiftRight_eq_div_pow]

/-- Helper: at bit position 16 the masked shift amount is 0, so the source's
`get_flag_bit` tests bit 0 of its (16-bit) operand. -/
theorem get_flag_bit_16_eq_testBit_zero (t : Nat) :
    get_flag_bit t 16 = Nat.testBit t 0 := by
  have h0 : get_flag_bit t 16 = get_flag_bit t 0 := rfl
  rw [h0, get_flag_bit_eq_testBit t 0 (by norm_num)]

/-- Claim C1: the claim states that ADD sets Z iff the truncated 8-bit result
is zero and H iff a carry occurred out of bit 3 of the widened sum.  The code
instead sets Z iff the WIDENED 16-bit sum is zero and H iff bit 4 of the
widened sum is set.  This theorem evaluates the code: the claim's own concrete
example (`A=0x0F + 0x01`) does hold, but with `A=0x1F, y=0x01` a half-carry
out of bit 3 occurs while the code leaves H clear, and with `A=0x80, y=0x80`
the truncated result is zero while the code leaves Z clear. -/
theorem C1_add_flags_divergence :
    ((add { cpu0 with regs := { regs0 with a := 0x0F } } (Arg8.Imm 0x01)).regs.a = 0x10
      ∧ get_flag (add { cpu0 with regs := { regs0 with a := 0x0F } } (Arg8.Imm 0x01)).regs Flag.H = true
      ∧ get_flag (add { cpu0 with regs := { regs0 with a := 0x0F } } (Arg8.Imm 0x01)).regs Flag.C = false
      ∧ get_flag (add { cpu0 with regs := { regs0 with a := 0x0F } } (Arg8.Imm 0x01)).regs Flag.Z = false)
  ∧ ((add { cpu0 with regs := { regs0 with a := 0x1F } } (Arg8.Imm 0x01)).regs.a = 0x20
      ∧ get_flag (add { cpu0 with regs := { regs0 with a := 0x1F } } (Arg8.Imm 0x01)).regs Flag.H = false)
  ∧ ((add { cpu0 with regs := { regs0 with a := 0x80 } } (Arg8.Imm 0x80)).regs.a = 0
      ∧ get_flag (add { cpu0 with regs := { regs0 with a := 0x80 } } (Arg8.Imm 0x80)).regs Flag.Z = false) := by
  decide

/-- Claim C2: the claim states that RL folds the previous carry into the
incoming low bit (so RL differs from RLC) and RR folds it into the incoming
high bit.  In the code `rl` and `rr` are literal aliases of `rlc` and `rrc`,
and with the carry flag previously set, RL of `0x00` produces `0x00` instead
of the claimed `0x01`. -/
theorem C2_rl_rr_alias :
    (∀ (cpu : Cpu) (io : Arg8), rl cpu io = rlc cpu io)
  ∧ (∀ (cpu : Cpu) (io : Arg8), rr cpu io = rrc cpu io)
  ∧ ((rl { cpu0 with regs := update_flag regs0 Flag.C true } (Arg8.Reg Reg8.A)).map
       (fun c => (c.regs.a, get_flag c.regs Flag.C)) = some (0, false)) :=
  ⟨fun _ _ => rfl, fun _ _ => rfl, by decide⟩

/-- Claim C3: the claim states PUSH pre-decrements SP and writes at the new
SP, POP reads at the current SP then increments, and that PUSH BC; POP DE with
SP=0xFFFE, BC=0x1234 yields DE=0x1234.  The code's `push` writes at the OLD SP
(0xFFFE, leaving 0xFFFC untouched) and only then decrements, `pop`
pre-increments before reading, and because the bus write is little-endian
(spec section 4.5) while `Cpu::mem_read_u16` assembles big-endian, the round
trip yields DE=0x3412; SP does return to 0xFFFE. -/
theorem C3_push_pop_divergence :
    (push { cpu0 with regs := { regs0 with sp := 0xFFFE, b := 0x12, c := 0x34 } }
        (Arg16.Reg Reg16.BC)).regs.sp = 0xFFFC
  ∧ (push { cpu0 with regs := { regs0 with sp := 0xFFFE, b := 0x12, c := 0x34 } }
        (Arg16.Reg Reg16.BC)).mem 0xFFFE = 0x34
  ∧ (push { cpu0 with regs := { regs0 with sp := 0xFFFE, b := 0x12, c := 0x34 } }
        (Arg16.Reg Reg16.BC)).mem 0xFFFF = 0x12
  ∧ (push { cpu0 with regs := { regs0 with sp := 0xFFFE, b := 0x12, c := 0x34 } }
        (Arg16.Reg Reg16.BC)).mem 0xFFFC = 0
  ∧ ((pop (push { cpu0 with regs := { regs0 with sp := 0xFFFE, b := 0x12, c := 0x34 } }
        (Arg16.Reg Reg16.BC)) (Arg16.Reg Reg16.DE)).map
        (fun c => (c.regs.sp, read_reg_pair c.regs.d c.regs.e)) = some (0xFFFE, 0x3412)) := by
  decide

/-- Claim C4: the claim states RLC rotates the outgoing high bit back into the
low bit (0x85 ↦ 0x0B) and RRC the outgoing low bit into the high bit
(0x85 ↦ 0xC2).  The code merely shifts: `rlc` of 0x85 yields 0x0A and `rrc`
yields 0x42 — the rotated-out bit is dropped.  The carry flag does match the
claim (C=true in both). -/
theorem C4_rlc_rrc_divergence :
    ((rlc { cpu0 with regs := { regs0 with a := 0x85 } } (Arg8.Reg Reg8.A)).map
        (fun c => (c.regs.a, get_flag c.regs Flag.C)) = some (0x0A, true))
  ∧ ((rrc { cpu0 with regs := { regs0 with a := 0x85 } } (Arg8.Reg Reg8.A)).map
        (fun c => (c.regs.a, get_flag c.regs Flag.C)) = some (0x42, true)) := by
  decide

/-- Claim C5: the claim states SWAP exchanges the nibbles, sets Z from the
result, clears N/H/C, and applied twice restores the byte.  The code masks the
left-shifted half with `0xF` instead of `0xF0`, so `swap` returns
`initial >> 4` (0x12 ↦ 0x01, not 0x21), writes no flag at all (F stays 0xF0),
and applying it twice yields 0x00, not the original byte. -/
theorem C5_swap_divergence :
    ((swap { cpu0 with regs := { regs0 with a := 0x12, f := 0xF0 } } (Arg8.Reg Reg8.A)).map
        (fun c => (c.regs.a, c.regs.f)) = some (0x01, 0xF0))
  ∧ (((swap { cpu0 with regs := { regs0 with a := 0x12, f := 0xF0 } } (Arg8.Reg Reg8.A)).bind
        (fun c => swap c (Arg8.Reg Reg8.A))).map
        (fun c => (c.regs.a, c.regs.f)) = some (0x00, 0xF0)) := by
  decide

/-- Claim C6: the claim states LD HL,SP+n interprets n as a signed
displacement, so SP=0x0100 with n=-1 should give HL=0x00FF.  The code computes
`sp - (n as u16)` for negative n: the cast sign-extends (-1 becomes 0xFFFF),
so the subtraction ADDS the magnitude mod 2^16 and HL becomes 0x0101. -/
theorem C6_ld16_hlsp_divergence :
    read_reg_pair (ld16_hlsp { cpu0 with regs := { regs0 with sp := 0x0100 } } (-1)).regs.h
      (ld16_hlsp { cpu0 with regs := { regs0 with sp := 0x0100 } } (-1)).regs.l = 0x0101 := by
  decide

/-- Claim C7: the claim states INC;DEC restores the value, never touches C,
and leaves Z/N/H at the second operation's freshly computed values.  The code
restores the value (7) and C (still true), and Z/N are DEC's fresh values,
but the code's `dec` never writes H (a TODO in the source), so H stays at
INC's value `true` — DEC of 8 incurs no borrow out of bit 4, so its freshly
computed H would be `false`. -/
theorem C7_inc_dec_divergence :
    ((inc { cpu0 with regs := { regs0 with a := 0x07, f := 0x10 } } (Arg8.Reg Reg8.A)).bind
        (fun c => dec c (Arg8.Reg Reg8.A))).map
      (fun c => (c.regs.a, get_flag c.regs Flag.Z, get_flag c.regs Flag.N,
                 get_flag c.regs Flag.H, get_flag c.regs Flag.C))
      = some (0x07, false, true, true, true) := by
  decide

/-- Claim C8 (counterexample): the claim states ADD16 leaves N unaffected and
sets C iff a carry occurred out of bit 15.  With HL=0x8000, operand 0x8000 and
all flags initially set, a carry out of bit 15 occurs, yet the code yields
C=false (its shift by 16 on the sum truncated to `u16` is masked to a shift by
0, testing bit 0 of 0x0000) and N=false (it resets N); Z is indeed left
unaffected (still true).  With HL=0x0000 and operand 0x0001, no carry leaves
bit 15, yet C=true (bit 0 of the truncated sum 0x0001).  With HL=0x1000 and
operand 0, no carry leaves bit 11, yet H=true (the code tests bit 12 of the
truncated sum, not the carry out of bit 11). -/
theorem C8_add16_counterexample :
    get_flag (add16 { cpu0 with regs := { regs0 with h := 0x80, f := 0xF0 } }
        (Arg16.Imm 0x8000)).regs Flag.C = false
  ∧ get_flag (add16 { cpu0 with regs := { regs0 with h := 0x80, f := 0xF0 } }
        (Arg16.Imm 0x8000)).regs Flag.N = false
  ∧ get_flag (add16 { cpu0 with regs := { regs0 with h := 0x80, f := 0xF0 } }
        (Arg16.Imm 0x8000)).regs Flag.Z = true
  ∧ get_flag (add16 cpu0 (Arg16.Imm 0x0001)).regs Flag.C = true
  ∧ get_flag (add16 { cpu0 with regs := { regs0 with h := 0x10 } } (Arg16.Imm 0)).regs Flag.H = true := by
  decide

/-- Claim C8 (amended): ADD16 computes the widened sum, stores its low 16 bits
into HL, clears N, sets H iff bit 12 of the truncated 16-bit sum is set, sets
C iff bit 0 of the truncated 16-bit sum is set (the source shifts the
`u16`-truncated sum right by 16, a shift amount Rust masks to 0 in release
builds — under debug assertions the shift overflow panics instead), and
leaves Z unaffected. -/
theorem C8_add16_amended (cpu : Cpu) (i : Arg16) :
    read_reg_pair (add16 cpu i).regs.h (add16 cpu i).regs.l
        = (read_reg_pair cpu.regs.h cpu.regs.l + read_arg16 cpu i) % 65536
  ∧ get_flag (add16 cpu i).regs Flag.N = false
  ∧ get_flag (add16 cpu i).regs Flag.H
        = Nat.testBit ((read_reg_pair cpu.regs.h cpu.regs.l + read_arg16 cpu i) % 65536) 12
  ∧ get_flag (add16 cpu i).regs Flag.C
        = Nat.testBit ((read_reg_pair cpu.regs.h cpu.regs.l + read_arg16 cpu i) % 65536) 0
  ∧ get_flag (add16 cpu i).regs Flag.Z = get_flag cpu.regs Flag.Z := by
  have hlt : (read_reg_pair cpu.regs.h cpu.regs.l + read_arg16 cpu i) % 65536 < 65536 :=
    Nat.mod_lt _ (by norm_num)
  refine ⟨?_, ?_, ?_, ?_, ?_⟩
  · exact recombine _ hlt
  · simp [add16, reset_flag, get_flag_update_flag]
  · simp [add16, reset_flag, get_flag_update_flag,
      get_flag_bit_eq_testBit _ 12 (by norm_num)]
  · simp [add16, reset_flag, get_flag_update_flag, get_flag_bit_16_eq_testBit_zero]
  · simp [add16, reset_flag, get_flag_update_flag]
    rfl

/-- Claim C9: writing through `write_arg8` or `write_arg16` with an
`Immediate` operand descriptor signals the invalid-operand fault (the
`panic!` arm, modelled as `none`) for every data value and every state; the
faulting arm is reached before any register, flag, or memory mutation, so no
successor state with a partial effect exists. -/
theorem C9_write_imm_faults (cpu : Cpu) (v data v16 data16 : Nat) :
    write_arg8 cpu (Arg8.Imm v) data = none
  ∧ write_arg16 cpu (Arg16.Imm v16) data16 = none :=
  ⟨rfl, rfl⟩

/-- Claim C10: `ROM::read_u8` indexes the fixed `0x8000`-byte buffer directly
with the raw address: below `0x8000` it returns the stored byte, and at
`0x8000` or above the index is out of bounds and the read faults — the
function is not total over the 16-bit address space. -/
theorem C10_rom_read_bounds (r : ROM) (addr : Nat) :
    (addr < 0x8000 → ROM.read_u8 r addr = some (r.rom addr))
  ∧ (0x8000 ≤ addr → ROM.read_u8 r addr = none) := by
  constructor
  · intro h
    simp [ROM.read_u8, h]
  · intro h
    simp [ROM.read_u8, Nat.not_lt.mpr h]

/-- Witness for C10: concrete instances of both halves on the all-zero ROM at
addresses 0x7FFF (in bounds) and 0x9000 (faulting). -/
theorem C10_rom_read_bounds_witness :
    (0x7FFF < 0x8000 ∧ ROM.read_u8 romZero 0x7FFF = some (romZero.rom 0x7FFF))
  ∧ (0x8000 ≤ 0x9000 ∧ ROM.read_u8 romZero 0x9000 = none) :=
  ⟨⟨by decide, (C10_rom_read_bounds romZero 0x7FFF).1 (by decide)⟩,
   ⟨by decide, (C10_rom_read_bounds romZero 0x9000).2 (by decide)⟩⟩

end GBC
